import Mathlib

/-!
Verification of `bench/times/times.c`: iterated application through a function
pointer.

Shallow embedding of the three functions of `times.c` (`add_five`, `times`,
`main`) and the properties of the iterated-apply loop.

Machine model (LP64): `int` is 32-bit two's complement, `long` is 64-bit two's
complement, `unsigned long` is 64-bit.  Values are mathematical integers and
every conversion or overflowing operation is written as an explicit reduction,
following the wraparound policy the specification names as the reference
behaviour (ISO C leaves overflow of `++i` and of `x + 5` undefined; wraparound
is what two's complement hardware does).  A function pointer `long (*f)(long)`
to a pure total function is a function `Int → Int`.  The loop is run with fuel
and returns `none` when the fuel is exhausted; `timesRun_eq` shows that it never
is for an `unsigned long` bound.
-/

namespace Times

/-! Machine integers -/

/-- Reduction of an integer into the range of `int`, `[-2^31, 2^31)`. -/
def wrapInt (z : Int) : Int := (z + 2147483648) % 4294967296 - 2147483648

/-- Reduction of an integer into the range of `long`, `[-2^63, 2^63)`. -/
def wrapLong (z : Int) : Int :=
  (z + 9223372036854775808) % 18446744073709551616 - 9223372036854775808

/-- Conversion of a signed value to `unsigned long` (usual arithmetic
conversions of `i < n` with `int i` and `unsigned long n`). -/
def toULong (z : Int) : Nat := (z % 18446744073709551616).toNat

/-! The program -/

/-- Source `long add_five(long x) { return x + 5; }`. -/
def add_five (x : Int) : Int := wrapLong (x + 5)

/-- Local state of the loop in `times`: the `int` counter `i`, the `long`
accumulator `val`, and (ghost) the arguments `f` has been called with so far,
oldest first. -/
structure LoopState where
  i : Int
  val : Int
  calls : List Int
deriving DecidableEq

/-- State at loop entry: `long val = x; int i = 0`. -/
def initState (x : Int) : LoopState := { i := 0, val := x, calls := [] }

/-- Loop test `i < n`: `i` is converted to `unsigned long` and compared. -/
def loopCond (n : Nat) (s : LoopState) : Bool := decide (toULong s.i < n)

/-- One pass: `val = f(val);` followed by `++i`. -/
def loopBody (f : Int → Int) (s : LoopState) : LoopState :=
  { i := wrapInt (s.i + 1), val := f s.val, calls := s.calls ++ [s.val] }

/-- Loop `for (...; i < n; ++i) val = f(val);` run for at most `fuel` passes;
`none` when the test still holds after `fuel` passes. -/
def timesLoop (n : Nat) (f : Int → Int) : Nat → LoopState → Option LoopState
  | 0, s => if loopCond n s then none else some s
  | fuel + 1, s => if loopCond n s then timesLoop n f fuel (loopBody f s) else some s

/-- Number of passes granted to the loop: the number of values of an `int`.
`timesRun_total` shows the loop always exits within it. -/
def loopFuel : Nat := 4294967296

/-- State in which the loop of `times(n, f, x)` exits. -/
def timesRun (n : Nat) (f : Int → Int) (x : Int) : Option LoopState :=
  timesLoop n f loopFuel (initState x)

/-- Source `long times(unsigned long n, long(*f)(long), long x)`: the value of
`val` at `return val;`. -/
def times (n : Nat) (f : Int → Int) (x : Int) : Option Int :=
  (timesRun n f x).map LoopState.val

/-- Text produced by `printf("%d\n", v)` for a `long` argument `v`: the
conversion reads an `int`, the low 32 bits of `v`, and prints it in base 10. -/
def printf_d (v : Int) : String := toString (wrapInt v) ++ "\n"

/-- Source `int main() { printf("%d\n", times(1000, add_five, 0)); }`: the text
written to standard output and the exit status (falling off the end of `main`
returns 0). -/
def main : Option (String × Int) :=
  (times 1000 add_five 0).map fun v => (printf_d v, 0)

/-! The loop with a function pointer that may have side effects -/

/-- Arguments of the first `k` calls in a strictly sequential evaluation
starting from `x`: `x, f x, ..., f^[k-1] x`. -/
def callSeq (f : Int → Int) (x : Int) (k : Nat) : List Int :=
  (List.range k).map fun j => f^[j] x

/-- Number of passes the loop of `times` makes for bound `n`: `n` while the
counter stays non-negative, `2^31` when the counter wraps to a value whose
unsigned conversion is at least `n`, and `n - (2^64 - 2^32)` beyond. -/
def iterCount (n : Nat) : Nat :=
  if n ≤ 2147483648 then n
  else if n ≤ 18446744071562067968 then 2147483648
  else n - 18446744069414584320

/-- Representable as `long`. -/
def inLong (z : Int) : Prop := -9223372036854775808 ≤ z ∧ z ≤ 9223372036854775807

instance inLongDecidable (z : Int) : Decidable (inLong z) :=
  inferInstanceAs (Decidable (-9223372036854775808 ≤ z ∧ z ≤ 9223372036854775807))

/-! The loop -/

theorem wrapInt_succ (k : Int) : wrapInt (wrapInt k + 1) = wrapInt (k + 1) := by
  unfold wrapInt; omega

theorem wrapInt_of_lt (k : Nat) (h : k < 2147483648) : wrapInt k = k := by
  unfold wrapInt; omega

theorem callSeq_succ (f : Int → Int) (x : Int) (k : Nat) :
    callSeq f x (k + 1) = callSeq f x k ++ [f^[k] x] := by
  simp [callSeq, List.range_succ]

theorem callSeq_length (f : Int → Int) (x : Int) (k : Nat) :
    (callSeq f x k).length = k := by
  simp [callSeq]

/-- State after `k` passes of the loop body from the entry state. -/
theorem iterate_loopBody (f : Int → Int) (x : Int) (k : Nat) :
    (loopBody f)^[k] (initState x)
      = { i := wrapInt k, val := f^[k] x, calls := callSeq f x k } := by
  induction k with
  | zero => simp [initState, wrapInt, callSeq]
  | succ k ih =>
    rw [Function.iterate_succ_apply', ih, Function.iterate_succ_apply', callSeq_succ]
    simp only [loopBody]
    rw [wrapInt_succ]
    norm_cast

/-- If the test holds in the first `m` states and fails in the next one, the
loop exits there, whenever at least `m` passes are granted. -/
theorem timesLoop_exit (n : Nat) (f : Int → Int) :
    ∀ (m fuel : Nat) (s : LoopState), m ≤ fuel →
      (∀ j, j < m → loopCond n ((loopBody f)^[j] s) = true) →
      loopCond n ((loopBody f)^[m] s) = false →
      timesLoop n f fuel s = some ((loopBody f)^[m] s) := by
  intro m
  induction m with
  | zero =>
    intro fuel s _ _ hexit
    simp only [Function.iterate_zero, id_eq] at hexit ⊢
    cases fuel <;> simp [timesLoop, hexit]
  | succ m ih =>
    intro fuel s hfuel hcond hexit
    obtain ⟨fuel, rfl⟩ : ∃ g, fuel = g + 1 := ⟨fuel - 1, by omega⟩
    have h0 : loopCond n s = true := by simpa using hcond 0 (by omega)
    rw [timesLoop, if_pos h0, Function.iterate_succ_apply]
    apply ih fuel (loopBody f s) (by omega)
    · intro j hj
      have := hcond (j + 1) (by omega)
      rwa [Function.iterate_succ_apply] at this
    · rwa [Function.iterate_succ_apply] at hexit

theorem loopCond_iterate (n : Nat) (f : Int → Int) (x : Int) (k : Nat) :
    loopCond n ((loopBody f)^[k] (initState x)) = decide (toULong (wrapInt k) < n) := by
  rw [iterate_loopBody]; rfl

theorem counter_lt_of_lt_iterCount (n j : Nat) (hn : n < 18446744073709551616)
    (hj : j < iterCount n) : toULong (wrapInt j) < n := by
  unfold iterCount at hj
  unfold toULong wrapInt
  split_ifs at hj <;> omega

theorem counter_ge_at_iterCount (n : Nat) (hn : n < 18446744073709551616) :
    ¬ toULong (wrapInt (iterCount n)) < n := by
  unfold iterCount toULong wrapInt
  split_ifs <;> omega

theorem iterCount_le_fuel (n : Nat) (hn : n < 18446744073709551616) :
    iterCount n ≤ loopFuel := by
  unfold iterCount loopFuel
  split_ifs <;> omega

theorem iterCount_of_le (n : Nat) (hn : n ≤ 2147483648) : iterCount n = n := by
  simp [iterCount, hn]

/-- Exit state of the loop for every `unsigned long` bound `n`. -/
theorem timesRun_eq (n : Nat) (f : Int → Int) (x : Int) (hn : n < 18446744073709551616) :
    timesRun n f x = some { i := wrapInt (iterCount n), val := f^[iterCount n] x,
                            calls := callSeq f x (iterCount n) } := by
  rw [← iterate_loopBody]
  apply timesLoop_exit n f (iterCount n) loopFuel (initState x) (iterCount_le_fuel n hn)
  · intro j hj
    rw [loopCond_iterate]
    exact decide_eq_true (counter_lt_of_lt_iterCount n j hn hj)
  · rw [loopCond_iterate]
    exact decide_eq_false (counter_ge_at_iterCount n hn)

/-- The loop of `times` exits within `loopFuel` passes for every `unsigned long`
bound. -/
theorem timesRun_total (n : Nat) (f : Int → Int) (x : Int) (hn : n < 18446744073709551616) :
    ∃ s, timesRun n f x = some s :=
  ⟨_, timesRun_eq n f x hn⟩

/-- Granting the loop any number of passes that is enough gives the same exit
state. -/
theorem timesLoop_fuel_irrelevant (n : Nat) (f : Int → Int) (x : Int) (fuel : Nat)
    (hn : n < 18446744073709551616) (hfuel : iterCount n ≤ fuel) :
    timesLoop n f fuel (initState x) = timesRun n f x := by
  rw [timesRun_eq n f x hn, ← iterate_loopBody]
  apply timesLoop_exit n f (iterCount n) fuel (initState x) hfuel
  · intro j hj
    rw [loopCond_iterate]
    exact decide_eq_true (counter_lt_of_lt_iterCount n j hn hj)
  · rw [loopCond_iterate]
    exact decide_eq_false (counter_ge_at_iterCount n hn)

/-- While fewer than `2^31` passes have completed, the counter equals the number
of completed passes. -/
theorem loop_state_of_lt (f : Int → Int) (x : Int) (k : Nat) (hk : k < 2147483648) :
    (loopBody f)^[k] (initState x) = { i := k, val := f^[k] x, calls := callSeq f x k } := by
  rw [iterate_loopBody, wrapInt_of_lt k hk]

theorem times_eq (n : Nat) (f : Int → Int) (x : Int) (hn : n < 18446744073709551616) :
    times n f x = some (f^[iterCount n] x) := by
  simp [times, timesRun_eq n f x hn]

theorem times_of_le (n : Nat) (f : Int → Int) (x : Int) (hn : n ≤ 2147483648) :
    times n f x = some (f^[n] x) := by
  rw [times_eq n f x (by omega), iterCount_of_le n hn]

/-- Iterating `add_five` adds `5 * k` modulo `2^64`. -/
theorem add_five_iterate (k : Nat) (x : Int) (hx : inLong x) :
    add_five^[k] x = wrapLong (x + 5 * k) := by
  induction k with
  | zero =>
    obtain ⟨h1, h2⟩ := hx
    simp only [Function.iterate_zero, id_eq, wrapLong]
    omega
  | succ k ih =>
    rw [Function.iterate_succ_apply', ih]
    unfold add_five wrapLong
    push_cast
    omega

theorem times_add_five_of_le (n : Nat) (x : Int) (hn : n ≤ 2147483648) (hx : inLong x)
    (hr : inLong (x + 5 * n)) : times n add_five x = some (x + 5 * n) := by
  rw [times_of_le n add_five x hn, add_five_iterate n x hx]
  obtain ⟨h1, h2⟩ := hr
  congr 1
  unfold wrapLong
  omega

theorem iterCount_le_self (n : Nat) : iterCount n ≤ n := by
  unfold iterCount
  split_ifs <;> omega

theorem iterCount_lt_fuel (n : Nat) (hn : n < 18446744073709551616) :
    iterCount n < 4294967296 := by
  unfold iterCount
  split_ifs <;> omega

/-- Two functions that agree along the orbit of `x` under `f` for the first `m`
steps have the same `m`-th iterate at `x`. -/
theorem iterate_eq_of_agree (f g : Int → Int) (x : Int) :
    ∀ m : Nat, (∀ k, k < m → f (f^[k] x) = g (f^[k] x)) → f^[m] x = g^[m] x := by
  intro m
  induction m with
  | zero => intro _; rfl
  | succ m ih =>
    intro h
    rw [Function.iterate_succ_apply', Function.iterate_succ_apply',
      ← ih (fun k hk => h k (by omega))]
    exact h m (by omega)

/-- Below the range limit of the counter one more pass is one more application,
before or after the others. -/
theorem times_succ_of_lt (n : Nat) (f : Int → Int) (x : Int) (hn : n < 2147483648) :
    times (n + 1) f x = (times n f x).map f ∧ times (n + 1) f x = times n f (f x) := by
  rw [times_of_le (n + 1) f x (by omega), times_of_le n f x (by omega),
    times_of_le n f (f x) (by omega)]
  exact ⟨by rw [Function.iterate_succ_apply']; rfl, by rw [Function.iterate_succ_apply]⟩

/-! Properties of `times`, `add_five` and `main` -/

/-- C1: at the `unsigned long` count `n = 2^31 + 1` with `f = add_five`, `x = 0`,
`times` returns `5 * 2^31 = 10737418240`, the value after `2^31` applications,
whereas the `n`-fold composition `f^n(x)` is `10737418245`: the `int` counter
wraps after `2^31` passes and its unsigned conversion then exceeds `n`. -/
theorem times_count_above_int_range :
    times 2147483649 add_five 0 = some 10737418240 ∧
    add_five^[2147483649] 0 = 10737418245 ∧
    times 2147483649 add_five 0 ≠ some (add_five^[2147483649] 0) := by
  have h1 : times 2147483649 add_five 0 = some 10737418240 := by
    rw [times_eq _ _ _ (by decide), show iterCount 2147483649 = 2147483648 by decide,
      add_five_iterate _ _ (by decide)]
    decide
  have h2 : add_five^[2147483649] 0 = 10737418245 := by
    rw [add_five_iterate _ _ (by decide)]
    decide
  refine ⟨h1, h2, ?_⟩
  rw [h1, h2]
  decide

/-- C2: splitting the count `2^31 + 1` as `n1 = 2^31`, `n2 = 1` with
`f = add_five`, `x = 0`: `times(n1 + n2, f, x)` is `10737418240`, while
`times(n2, f, times(n1, f, x))` is `10737418245`; the two sides differ. -/
theorem times_split_above_int_range :
    times (2147483648 + 1) add_five 0 = some 10737418240 ∧
    (times 2147483648 add_five 0).bind (times 1 add_five) = some 10737418245 := by
  constructor
  · rw [times_eq _ _ _ (by decide), show iterCount (2147483648 + 1) = 2147483648 by decide,
      add_five_iterate _ _ (by decide)]
    decide
  · rw [times_add_five_of_le 2147483648 0 (by decide) (by decide) (by decide)]
    decide

/-- C3: for every `unsigned long` count `n` and every `x`, `times(n, id, x)`
returns `x`. -/
theorem times_id (n : Nat) (x : Int) (hn : n < 18446744073709551616) :
    times n id x = some x := by
  rw [times_eq n id x hn, Function.iterate_id]
  rfl

theorem times_id_witness :
    (18446744073709551615 : Nat) < 18446744073709551616 ∧
      times 18446744073709551615 id (-42) = some (-42) :=
  ⟨by decide, times_id 18446744073709551615 (-42) (by decide)⟩

/-- C4: for every `long` `x` such that `x + 5` is representable as a `long`,
`add_five(x)` is exactly `x + 5`. -/
theorem add_five_exact (x : Int) (hx : inLong x) (h5 : inLong (x + 5)) :
    add_five x = x + 5 := by
  obtain ⟨h1, h2⟩ := hx
  obtain ⟨h3, h4⟩ := h5
  unfold add_five wrapLong
  omega

theorem add_five_exact_witness :
    inLong 9223372036854775802 ∧ inLong (9223372036854775802 + 5) ∧
      add_five 9223372036854775802 = 9223372036854775802 + 5 :=
  ⟨by decide, by decide, add_five_exact 9223372036854775802 (by decide) (by decide)⟩

/-- C5: the four listed instances hold (`(0,0) ↦ 0`, `(1,0) ↦ 5`,
`(1000,0) ↦ 5000`, `(1000,-5000) ↦ 0`), but the general statement fails at
`n = 2^32`, `x = 0`: every `0 + 5*k` with `k ≤ n` is representable as a `long`,
yet `times(n, add_five, 0)` is `10737418240 = 5 * 2^31`, not `0 + 5*n`. -/
theorem times_add_five_above_int_range :
    times 0 add_five 0 = some 0 ∧ times 1 add_five 0 = some 5 ∧
    times 1000 add_five 0 = some 5000 ∧ times 1000 add_five (-5000) = some 0 ∧
    (∀ k : Nat, k ≤ 4294967296 → inLong (0 + 5 * (k : Int))) ∧
    times 4294967296 add_five 0 = some 10737418240 ∧
    times 4294967296 add_five 0 ≠ some (0 + 5 * 4294967296) := by
  have h : times 4294967296 add_five 0 = some 10737418240 := by
    rw [times_eq _ _ _ (by decide), show iterCount 4294967296 = 2147483648 by decide,
      add_five_iterate _ _ (by decide)]
    decide
  refine ⟨by decide, by decide, ?_, ?_, ?_, h, ?_⟩
  · exact times_add_five_of_le 1000 0 (by decide) (by decide) (by decide)
  · exact times_add_five_of_le 1000 (-5000) (by decide) (by decide) (by decide)
  · intro k hk
    unfold inLong
    omega
  · rw [h]
    decide

/-- C6: the call `times(1000, add_five, 0)` made by `main` has value `5000`;
`main` writes exactly the text `5000` followed by a newline to standard output
and exits with status `0`. -/
theorem main_output :
    times 1000 add_five 0 = some 5000 ∧ main = some ("5000\n", 0) := by
  have h : times 1000 add_five 0 = some 5000 :=
    times_add_five_of_le 1000 0 (by decide) (by decide) (by decide)
  refine ⟨h, ?_⟩
  rw [main, h]
  decide

/-- C7: for every `f` and `x`, `times(0, f, x)` returns `x` and the loop exits
in its entry state: the counter is `0` and `f` has not been called. -/
theorem times_zero (f : Int → Int) (x : Int) :
    times 0 f x = some x ∧
      timesRun 0 f x = some { i := 0, val := x, calls := [] } := by
  constructor <;> rfl

/-- C8: with `n = 2^31`, `f = id`, `x = 0` the loop executes `2^31` passes; the
state after `k = 2^31` completed passes has accumulator `f^k(x)` but counter
`i = -2^31`, not `k`: the pass taken at `i = 2^31 - 1` does not preserve
`i = k`. -/
theorem counter_not_pass_count :
    ∃ s, timesRun 2147483648 id 0 = some s ∧ s.calls.length = 2147483648 ∧
      (loopBody id)^[2147483648] (initState 0) = s ∧
      s.val = id^[2147483648] 0 ∧ s.i = -2147483648 ∧ s.i ≠ 2147483648 := by
  have hc : iterCount 2147483648 = 2147483648 := by decide
  have hrun := timesRun_eq 2147483648 id 0 (by decide)
  rw [hc] at hrun
  refine ⟨_, hrun, ?_, ?_, ?_, ?_, ?_⟩
  · simp only [callSeq_length]
  · exact iterate_loopBody id 0 2147483648
  · simp only
  · simp only
    decide
  · simp only
    decide

/-- C9: with `n = 3000000000`, `f = add_five`, `x = 0` the function `f` is
called `2^31 = 2147483648` times, not `n` times; the arguments of those calls
are `x, f(x), ..., f^(2^31 - 1)(x)` and the value returned is `f^(2^31)(x)`. -/
theorem times_call_count_above_int_range :
    ∃ s, timesRun 3000000000 add_five 0 = some s ∧
      s.calls = callSeq add_five 0 2147483648 ∧ s.calls.length = 2147483648 ∧
      s.calls.length ≠ 3000000000 ∧ s.val = add_five^[2147483648] 0 := by
  have hc : iterCount 3000000000 = 2147483648 := by decide
  have hrun := timesRun_eq 3000000000 add_five 0 (by decide)
  rw [hc] at hrun
  refine ⟨_, hrun, ?_, ?_, ?_, ?_⟩
  · simp only
  · simp only [callSeq_length]
  · simp only [callSeq_length]
    decide
  · simp only

/-- C10: `add_five` wraps (`add_five(LONG_MAX) = LONG_MIN + 4`, and
`add_five(x)` is `x + 5` reduced into the `long` range for every `x`), but at
`n = 2^64 - 1`, `x = 0` the value of `times(n, add_five, x)` is
`21474836475 = 5 * (2^32 - 1)`, whereas `x + 5*n` reduced modulo `2^64` into the
`long` range is `-5`. -/
theorem times_add_five_wrap_above_int_range :
    add_five 9223372036854775807 = -9223372036854775808 + 4 ∧
    (∀ x : Int, add_five x = wrapLong (x + 5)) ∧
    times 18446744073709551615 add_five 0 = some 21474836475 ∧
    wrapLong (0 + 5 * 18446744073709551615) = -5 := by
  refine ⟨by decide, fun _ => rfl, ?_, by decide⟩
  rw [times_eq _ _ _ (by decide), show iterCount 18446744073709551615 = 4294967295 by decide,
    add_five_iterate _ _ (by decide)]
  decide

/-- C12: for every `unsigned long` bound `n` (also above `INT_MAX`), every total
`f` and every `x`, the loop of `times` terminates: with the `int` counter
converted to `unsigned long` for the test and wrapping on increment, it exits
after some number `m < 2^32` of passes, in a state where the test `i < n` fails,
whatever number of passes at least `m` it is granted. -/
theorem times_loop_terminates (n : Nat) (f : Int → Int) (x : Int)
    (hn : n < 18446744073709551616) :
    ∃ (m : Nat) (s : LoopState), m < 4294967296 ∧ s.calls.length = m ∧
      loopCond n s = false ∧
      (∀ fuel, m ≤ fuel → timesLoop n f fuel (initState x) = some s) ∧
      timesRun n f x = some s ∧ times n f x = some s.val := by
  refine ⟨iterCount n, _, iterCount_lt_fuel n hn, ?_, ?_, ?_, timesRun_eq n f x hn, ?_⟩
  · simp only [callSeq_length]
  · exact decide_eq_false (counter_ge_at_iterCount n hn)
  · intro fuel hfuel
    rw [timesLoop_fuel_irrelevant n f x fuel hn hfuel, timesRun_eq n f x hn]
  · exact times_eq n f x hn

theorem times_loop_terminates_witness :
    (18446744073709551615 : Nat) < 18446744073709551616 ∧
    ∃ (m : Nat) (s : LoopState), m < 4294967296 ∧ s.calls.length = m ∧
      loopCond 18446744073709551615 s = false ∧
      (∀ fuel, m ≤ fuel → timesLoop 18446744073709551615 add_five fuel (initState 0) = some s) ∧
      timesRun 18446744073709551615 add_five 0 = some s ∧
      times 18446744073709551615 add_five 0 = some s.val :=
  ⟨by decide, times_loop_terminates 18446744073709551615 add_five 0 (by decide)⟩

/-- C13: for every `n ≤ INT_MAX`, in every state the loop of `times` goes
through (the state after `k` passes, `k ≤ n`) the counter satisfies
`0 ≤ i ≤ n`, equals the number of completed passes and is unchanged by the
conversion to `unsigned long`; whenever the body runs (`k < n`) the increment
`i + 1` stays at most `INT_MAX`; the test fails after pass `n`, so the body is
executed exactly `n` times. -/
theorem counter_in_range_of_le_int_max (n : Nat) (f : Int → Int) (x : Int)
    (hn : n ≤ 2147483647) :
    (∀ k, k ≤ n →
      ((loopBody f)^[k] (initState x)).i = k ∧
      0 ≤ ((loopBody f)^[k] (initState x)).i ∧ ((loopBody f)^[k] (initState x)).i ≤ n ∧
      (toULong ((loopBody f)^[k] (initState x)).i : Int) = ((loopBody f)^[k] (initState x)).i ∧
      (k < n → loopCond n ((loopBody f)^[k] (initState x)) = true ∧
        ((loopBody f)^[k] (initState x)).i + 1 ≤ 2147483647)) ∧
    loopCond n ((loopBody f)^[n] (initState x)) = false ∧
    timesRun n f x = some ((loopBody f)^[n] (initState x)) ∧
    ((loopBody f)^[n] (initState x)).calls.length = n ∧
    times n f x = some (f^[n] x) := by
  refine ⟨?_, ?_, ?_, ?_, times_of_le n f x (by omega)⟩
  · intro k hk
    have hs := loop_state_of_lt f x k (by omega)
    have hc := loopCond_iterate n f x k
    rw [hs] at hc ⊢
    simp only [loopCond, decide_eq_true_eq] at hc ⊢
    refine ⟨trivial, by omega, by omega, ?_, ?_⟩
    · unfold toULong; omega
    · intro hlt
      refine ⟨?_, by omega⟩
      unfold toULong; omega
  · rw [loopCond_iterate]
    apply decide_eq_false
    unfold toULong wrapInt; omega
  · rw [timesRun_eq n f x (by omega), iterCount_of_le n (by omega), iterate_loopBody]
  · rw [iterate_loopBody]
    exact callSeq_length f x n

theorem counter_in_range_of_le_int_max_witness :
    (2147483647 : Nat) ≤ 2147483647 ∧
    ((∀ k, k ≤ 2147483647 →
      ((loopBody add_five)^[k] (initState 0)).i = k ∧
      0 ≤ ((loopBody add_five)^[k] (initState 0)).i ∧
      ((loopBody add_five)^[k] (initState 0)).i ≤ (2147483647 : Nat) ∧
      (toULong ((loopBody add_five)^[k] (initState 0)).i : Int)
        = ((loopBody add_five)^[k] (initState 0)).i ∧
      (k < 2147483647 → loopCond 2147483647 ((loopBody add_five)^[k] (initState 0)) = true ∧
        ((loopBody add_five)^[k] (initState 0)).i + 1 ≤ 2147483647)) ∧
    loopCond 2147483647 ((loopBody add_five)^[2147483647] (initState 0)) = false ∧
    timesRun 2147483647 add_five 0 = some ((loopBody add_five)^[2147483647] (initState 0)) ∧
    ((loopBody add_five)^[2147483647] (initState 0)).calls.length = 2147483647 ∧
    times 2147483647 add_five 0 = some (add_five^[2147483647] 0)) :=
  ⟨by decide, counter_in_range_of_le_int_max 2147483647 add_five 0 (by decide)⟩

/-- C14: for every `unsigned long` bound `n` and every `x`, if `f` and `g` agree
on every `f^k(x)` with `0 ≤ k < n`, then `times(n, f, x)` and `times(n, g, x)`
return the same value. -/
theorem times_congr_on_orbit (n : Nat) (f g : Int → Int) (x : Int)
    (hn : n < 18446744073709551616) (h : ∀ k, k < n → f (f^[k] x) = g (f^[k] x)) :
    times n f x = times n g x ∧ ∃ r, times n f x = some r := by
  have hle := iterCount_le_self n
  rw [times_eq n f x hn, times_eq n g x hn,
    iterate_eq_of_agree f g x (iterCount n) (fun k hk => h k (by omega))]
  exact ⟨rfl, _, rfl⟩

theorem times_congr_on_orbit_witness :
    (3 : Nat) < 18446744073709551616 ∧
    (∀ k, k < 3 →
      add_five (add_five^[k] 0) = (fun v : Int => if v ≤ 10 then v + 5 else 0) (add_five^[k] 0)) ∧
    add_five 15 ≠ (fun v : Int => if v ≤ 10 then v + 5 else 0) 15 ∧
    (times 3 add_five 0 = times 3 (fun v : Int => if v ≤ 10 then v + 5 else 0) 0 ∧
      ∃ r, times 3 add_five 0 = some r) :=
  ⟨by decide, by decide, by decide,
    times_congr_on_orbit 3 add_five (fun v : Int => if v ≤ 10 then v + 5 else 0) 0
      (by decide) (by decide)⟩

/-- C15: with `n = 2^31` (so `n + 1` is representable), `f = add_five`, `x = 7`:
`times(n + 1, f, x)` is `10737418247`, whereas `f(times(n, f, x))` and
`times(n, f, f(x))` are both `10737418252`; the last two agree with each other
but not with the first. -/
theorem times_succ_above_int_range :
    times (2147483648 + 1) add_five 7 = some 10737418247 ∧
    (times 2147483648 add_five 7).map add_five = some 10737418252 ∧
    times 2147483648 add_five (add_five 7) = some 10737418252 := by
  refine ⟨?_, ?_, ?_⟩
  · rw [times_eq _ _ _ (by decide), show iterCount (2147483648 + 1) = 2147483648 by decide,
      add_five_iterate _ _ (by decide)]
    decide
  · rw [times_add_five_of_le 2147483648 7 (by decide) (by decide) (by decide)]
    decide
  · rw [show add_five 7 = 12 by decide,
      times_add_five_of_le 2147483648 12 (by decide) (by decide) (by decide)]
    decide

end Times
